import Mathlib

/-!
Shallow embedding of the makansplit repository's PayNow QR payload encoder
(src/paynow.py, src/utils.py, src/paynow_generator.py), the bill
apportionment arithmetic (src/bill_analyzer.py) and the PayNow recipient
store (src/paynow_storage.py), together with theorems settling the frozen
claims about them.

Modelling conventions:
* Python strings are Lean `String`s; Python `len` on a string is the
  character count (`String.length`), exactly as in CPython.
* Python integers are `Nat`/`Int`; 16-bit overflow is expressed with the
  source's own `&&& 0xFFFF` masks.
* Monetary amounts are modelled as an exact number of cents (`Int`), so
  that the source's `"{:.2f}".format(float(amount))` becomes an exact
  2-decimal rendering; every claim only ever evaluates it on amounts that
  are exact in binary floating point at that scale.
* Fallible Python operations (`int(...)` parsing, division) return
  `Option`.
-/

namespace Makansplit

/-! ### Decimal and hexadecimal rendering

Python's `str(n)` / `"{:02}"` / `"{:08d}"` / `"{:04X}"` formatting for
non-negative integers: a digit list without leading zeros, left-padded
with `'0'` to the requested minimum width.
-/

/-- The character for a decimal digit `d < 10`, i.e. `chr(48 + d)`. -/
def decDigitChar (d : Nat) : Char := Char.ofNat (48 + d)

/-- The character for a hexadecimal digit `d < 16`, uppercase as in
Python's `"X"` format: `0`–`9` then `A`–`F`. -/
def hexDigitChar (d : Nat) : Char :=
  if d < 10 then Char.ofNat (48 + d) else Char.ofNat (55 + d)

/-- Decimal digit characters of `n`, most significant first, with
explicit fuel so the recursion is structural (the fuel never runs out
when it starts at `n`, since `n / 10 < n` at every recursive call). -/
def decCharsFuel : Nat → Nat → List Char
  | 0, n => [decDigitChar (n % 10)]
  | f + 1, n =>
    if n < 10 then [decDigitChar n]
    else decCharsFuel f (n / 10) ++ [decDigitChar (n % 10)]

/-- Decimal digit characters of `n`, most significant first; `str(n)`
for a non-negative Python int. -/
def decChars (n : Nat) : List Char := decCharsFuel n n

/-- Uppercase hexadecimal digit characters of `n`, most significant
first, with the same fuel discipline as `decCharsFuel`. -/
def hexCharsFuel : Nat → Nat → List Char
  | 0, n => [hexDigitChar (n % 16)]
  | f + 1, n =>
    if n < 16 then [hexDigitChar n]
    else hexCharsFuel f (n / 16) ++ [hexDigitChar (n % 16)]

/-- Uppercase hexadecimal digit characters of `n`, most significant
first. -/
def hexChars (n : Nat) : List Char := hexCharsFuel n n

/-- Python `str(n)` for a non-negative int. -/
def natStr (n : Nat) : String := ⟨decChars n⟩

/-- Python `str(i)` for an int: an optional `-` sign followed by the
decimal digits of the absolute value. -/
def intStr (i : Int) : String :=
  if i < 0 then "-" ++ natStr i.natAbs else natStr i.natAbs

/-- Left-pad a string with `'0'` to minimum width `w`: the behaviour of
Python's `str.zfill(w)` and of zero-padded `format` width specifiers on
non-negative values. -/
def padZeros (s : String) (w : Nat) : String :=
  ⟨List.replicate (w - s.length) '0' ++ s.data⟩

/-- Python `f"{n:02}"` on a non-negative int: decimal, zero-padded to width 2. -/
def pad02 (n : Nat) : String := padZeros (natStr n) 2

/-- Python `f"{n:08d}"` on a non-negative int. -/
def pad08 (n : Nat) : String := padZeros (natStr n) 8

/-- Python `f"{n:04X}"` on a non-negative int: uppercase hex, zero-padded to
width 4. -/
def hex04 (n : Nat) : String := padZeros (⟨hexChars n⟩ : String) 4

/-- The numeric value of a list of decimal digit characters, as read by
Python's `int(...)` on a plain digit string. -/
def charsVal (l : List Char) : Nat :=
  l.foldl (fun a c => 10 * a + (c.toNat - 48)) 0

/-- Is `c` one of the ASCII digits `0`–`9` (code points 48–57)? -/
def isDecDigit (c : Char) : Bool := decide (48 ≤ c.toNat ∧ c.toNat ≤ 57)

/-- Python `int(s)`, modelled for the strings the repository feeds it:
defined on non-empty strings of ASCII decimal digits, `none` (an
exception) otherwise. -/
def parseNat? (s : String) : Option Nat :=
  if s.data ≠ [] ∧ ∀ c ∈ s.data, isDecDigit c then some (charsVal s.data) else none

/-! ### UTF-8 -/

/-- UTF-8 encoding of a single code point, as `str.encode("utf-8")`
produces it byte by byte. -/
def utf8EncodeCharNat (c : Nat) : List Nat :=
  if c < 0x80 then [c]
  else if c < 0x800 then [0xC0 ||| (c >>> 6), 0x80 ||| (c &&& 0x3F)]
  else if c < 0x10000 then
    [0xE0 ||| (c >>> 12), 0x80 ||| ((c >>> 6) &&& 0x3F), 0x80 ||| (c &&& 0x3F)]
  else
    [0xF0 ||| (c >>> 18), 0x80 ||| ((c >>> 12) &&& 0x3F),
     0x80 ||| ((c >>> 6) &&& 0x3F), 0x80 ||| (c &&& 0x3F)]

/-- The UTF-8 bytes of a string, i.e. Python's `s.encode("utf-8")`. -/
def utf8Bytes (s : String) : List Nat :=
  (s.data.map (fun c => utf8EncodeCharNat c.toNat)).flatten

/-- The UTF-8 byte length of a string: `len(s.encode("utf-8"))`. -/
def utf8Len (s : String) : Nat := (utf8Bytes s).length

/-! ### CRC-16/CCITT (src/utils.py `calculate_crc`)

```python
crc = 0xFFFF
poly = 0x1021
for byte in bytearray(payload.encode("utf-8")):
    crc ^= (byte << 8)
    for _ in range(8):
        if crc & 0x8000:
            crc = (crc << 1) ^ poly
        else:
            crc <<= 1
        crc &= 0xFFFF
return f"{crc:04X}"
```
-/

/-- One iteration of the inner 8-round loop of `calculate_crc`. -/
def crcBit (crc : Nat) : Nat :=
  (if crc &&& 0x8000 ≠ 0 then (crc <<< 1) ^^^ 0x1021 else crc <<< 1) &&& 0xFFFF

/-- Iterating the inner loop body `k` times (the source runs it 8 times). -/
def crcInner : Nat → Nat → Nat
  | 0, crc => crc
  | k + 1, crc => crcInner k (crcBit crc)

/-- The register value after folding all input bytes, starting from
`0xFFFF`. -/
def crcFold (bytes : List Nat) : Nat :=
  bytes.foldl (fun crc byte => crcInner 8 (crc ^^^ (byte <<< 8))) 0xFFFF

/-- The source's `calculate_crc` (src/utils.py): CRC-16/CCITT of the UTF-8 bytes of `payload`,
rendered as 4 uppercase zero-padded hex digits. -/
def calculate_crc (payload : String) : String :=
  hex04 (crcFold (utf8Bytes payload))

/-- The generator's CRC (`_calculate_crc16` in src/paynow_generator.py): the
same algorithm, transliterated over `data.encode('utf-8')`. -/
def calculate_crc16 (data : String) : String :=
  hex04 (crcFold (utf8Bytes data))

/-! ### Reference CRC-16/CCITT, modelled from the specification text

The spec's reference definition, written from its words alone: a 16-bit
register initialised to `0xFFFF`; each byte XORed in shifted left by 8;
eight rounds of shift-left-by-one, XOR with `0x1021` when the `0x8000`
bit was set before the shift, masked to 16 bits after each shift. -/

/-- One round of the spec's bit loop. -/
def crcSpecRound (r : Nat) : Nat :=
  (if r.testBit 15 then (r <<< 1) ^^^ 0x1021 else r <<< 1) % 65536

/-- Processing one byte per the spec: XOR in the byte shifted left by 8,
then eight rounds. -/
def crcSpecByte (r b : Nat) : Nat := crcSpecRound^[8] (r ^^^ (b <<< 8))

/-- Folding the whole byte sequence per the spec. -/
def crcSpecFold : List Nat → Nat → Nat
  | [], r => r
  | b :: bs, r => crcSpecFold bs (crcSpecByte r b)

/-- Modelled from the spec: `computeChecksum`, the final register value of the
reference CRC-16/CCITT, as 4 uppercase zero-padded hex digits. -/
def computeChecksum (bytes : List Nat) : String :=
  hex04 (crcSpecFold bytes 0xFFFF)

/-- The sixteen characters Python's `"X"` format can emit. -/
def hexUpperChars : List Char := "0123456789ABCDEF".data

/-! ### PayNowQR (src/paynow.py)

`PayNowQR.__init__` stores the request fields, formatting the amount to
two decimals and the expiry date to 8 zero-padded digits (or the
sentinel `"20991230"` when the argument is empty/falsy).
-/

/-- The state a constructed `PayNowQR` object holds. `recipient_type`
is a plain string, exactly as in the source, where the constructor
merely compares it against `"UEN"`. -/
structure PayNowQR where
  recipient_type : String
  recipient_id : String
  recipient_name : String
  amount : String
  reference : String
  expiry_date : String
deriving DecidableEq, Repr

/-- The amount formatting `"{:.2f}".format(float(amount))` for an amount given as an exact
number of cents (every amount the claims touch is exact in binary
floating point at two decimals, so the float detour is the identity). -/
def formatFixed2 (cents : Int) : String :=
  (if cents < 0 then "-" else "")
    ++ natStr (cents.natAbs / 100) ++ "." ++ padZeros (natStr (cents.natAbs % 100)) 2

/-- The constructor `PayNowQR.__init__`: `none` models the `ValueError` Python's
`int(expiry_date)` raises on a non-numeric non-empty string; every
other input constructs an object. -/
def mkPayNowQR (recipient_type recipient_id recipient_name : String)
    (amountCents : Int) (reference expiry_date : String) : Option PayNowQR :=
  if expiry_date = "" then
    some { recipient_type, recipient_id, recipient_name,
           amount := formatFixed2 amountCents, reference,
           expiry_date := "20991230" }
  else
    match parseNat? expiry_date with
    | none => none
    | some n =>
      some { recipient_type, recipient_id, recipient_name,
             amount := formatFixed2 amountCents, reference,
             expiry_date := pad08 n }

/-- The local `recipient_type_id = "2" if self.recipient_type == "UEN" else "0"`. -/
def recipientTypeId (q : PayNowQR) : String :=
  if q.recipient_type = "UEN" then "2" else "0"

/-- The `merchant_account_info` local of `generate_payload`, the value
of payload tag 26. The source writes the sub-field for tag `03`
(editable amount off) as the single literal `"03010"`. -/
def merchantAccountInfo (q : PayNowQR) : String :=
  "0009SG.PAYNOW"
    ++ "01" ++ pad02 (recipientTypeId q).length ++ recipientTypeId q
    ++ "02" ++ pad02 q.recipient_id.length ++ q.recipient_id
    ++ "03010"
    ++ "04" ++ pad02 q.expiry_date.length ++ q.expiry_date

/-- The value of payload tag 62 (`"01" + reference_length + reference`). -/
def additionalData (q : PayNowQR) : String :=
  "01" ++ pad02 q.reference.length ++ q.reference

/-- The `payload` local of `generate_payload` before the CRC is
appended. `additional_data_field_length` is
`f"{int(reference_length) + 4:02}"` in the source; re-parsing the
2-digit decimal rendering of `len(self.reference)` yields
`len(self.reference)` again, so it is `pad02 (len + 4)`. -/
def payloadBody (q : PayNowQR) : String :=
  "000201" ++ "010212"
    ++ "26" ++ pad02 (merchantAccountInfo q).length ++ merchantAccountInfo q
    ++ "52040000"
    ++ "5303702"
    ++ "54" ++ pad02 q.amount.length ++ q.amount
    ++ "5802SG"
    ++ "59" ++ pad02 q.recipient_name.length ++ q.recipient_name
    ++ "6009Singapore"
    ++ "62" ++ pad02 (q.reference.length + 4) ++ additionalData q

/-- The encoder `PayNowQR.generate_payload`: compute the checksum over the payload
plus the literal `"6304"`, then append tag, length and checksum. -/
def generate_payload (q : PayNowQR) : String :=
  let payload := payloadBody q
  let checksum := calculate_crc (payload ++ "6304")
  payload ++ "6304" ++ checksum

/-- The full `encode` operation: construct the object and generate its payload; `none` is
an uncaught exception. -/
def encodePayNow (recipient_type recipient_id recipient_name : String)
    (amountCents : Int) (reference expiry_date : String) : Option String :=
  (mkPayNowQR recipient_type recipient_id recipient_name amountCents
    reference expiry_date).map generate_payload

/-! ### PayNowGenerator (src/paynow_generator.py) -/

/-- The configured generator: a recipient phone and display name. -/
structure PayNowGenerator where
  recipient_phone : String
  recipient_name : String
deriving DecidableEq, Repr

/-- The generator's TLV helper `format_field`:
`f"{tag}{str(len(value)).zfill(2)}{value}"`. -/
def format_field (tag value : String) : String :=
  tag ++ pad02 value.length ++ value

/-- The generator's `payload` local just before `payload += "6304"`,
including the conditional tag-62 block. -/
def gpBase (g : PayNowGenerator) (amountCents : Int) (reference : String) : String :=
  let paynow_data :=
    format_field "00" "SG.PAYNOW"
      ++ format_field "01" "2"
      ++ format_field "02" ((g.recipient_phone.replace "+" "").replace " " "")
      ++ format_field "03" "1"
  let payload :=
    format_field "00" "01"
      ++ format_field "01" "12"
      ++ format_field "26" paynow_data
      ++ format_field "52" "0000"
      ++ format_field "53" "702"
      ++ format_field "54" (formatFixed2 amountCents)
      ++ format_field "58" "SG"
      ++ format_field "59" (g.recipient_name.take 25)
  if reference ≠ "" then
    payload ++ format_field "62" (format_field "01" (reference.take 25))
  else
    payload

/-- The generator's `generate_paynow_string`: append the open CRC tag
`"6304"`, checksum the whole string, append the checksum. -/
def generate_paynow_string (g : PayNowGenerator) (amountCents : Int)
    (reference : String) : String :=
  let payload := gpBase g amountCents reference ++ "6304"
  payload ++ calculate_crc16 payload

/-! ### The TLV fields the PayNowQR encoder emits

Each entry is `(tag, emitted length string, value)`, transcribed from
the very concatenations of `generate_payload`; the decomposition lemmas
below prove the payload is exactly the rendering of these fields. -/

/-- Render one emitted TLV field back into its wire form. -/
def renderTLV (f : String × String × String) : String := f.1 ++ f.2.1 ++ f.2.2

/-- The nested sub-fields of tag 26 (merchant account information). -/
def merchantAccountFields (q : PayNowQR) : List (String × String × String) :=
  [("00", "09", "SG.PAYNOW"),
   ("01", pad02 (recipientTypeId q).length, recipientTypeId q),
   ("02", pad02 q.recipient_id.length, q.recipient_id),
   ("03", "01", "0"),
   ("04", pad02 q.expiry_date.length, q.expiry_date)]

/-- The nested sub-field of tag 62 (additional data). -/
def additionalDataFields (q : PayNowQR) : List (String × String × String) :=
  [("01", pad02 q.reference.length, q.reference)]

/-- The top-level fields of the payload, CRC field included. -/
def topLevelFields (q : PayNowQR) : List (String × String × String) :=
  [("00", "02", "01"),
   ("01", "02", "12"),
   ("26", pad02 (merchantAccountInfo q).length, merchantAccountInfo q),
   ("52", "04", "0000"),
   ("53", "03", "702"),
   ("54", pad02 q.amount.length, q.amount),
   ("58", "02", "SG"),
   ("59", pad02 q.recipient_name.length, q.recipient_name),
   ("60", "09", "Singapore"),
   ("62", pad02 (q.reference.length + 4), additionalData q),
   ("63", "04", calculate_crc (payloadBody q ++ "6304"))]

/-- Every TLV field the encoder emits, nested sub-fields included. -/
def tlvEmitted (q : PayNowQR) : List (String × String × String) :=
  topLevelFields q ++ merchantAccountFields q ++ additionalDataFields q

/-- The spec's TLV length invariant, as the claim states it: every
emitted field's length string is the 2-digit decimal rendering of the
UTF-8 byte length of its value. -/
def lengthsAreUtf8ByteLengths (q : PayNowQR) : Prop :=
  ∀ f ∈ tlvEmitted q, f.2.1 = pad02 (utf8Len f.2.2)

/-- Does `pat` occur as a contiguous run of characters inside `l`? -/
def hasSublist (pat : List Char) : List Char → Bool
  | [] => pat.isEmpty
  | c :: t => (c :: t).take pat.length == pat || hasSublist pat t

/-- Does `pat` occur as a contiguous substring of `hay`? -/
def strContains (hay pat : String) : Bool := hasSublist pat.data hay.data

/-! ### Bill apportionment (src/bill_analyzer.py `analyze_bill`)

The arithmetic step after the model response is parsed:

```python
if data['subtotal'] > 0:
    tax_rate = data['tax'] / data['subtotal']
    service_rate = data['service_charge'] / data['subtotal']
    for item in data['items']:
        item['tax'] = round(item['price'] * tax_rate, 2)
        item['service_charge'] = round(item['price'] * service_rate, 2)
        item['total_price'] = round(item['price'] + item['tax'] + item['service_charge'], 2)
```

Numbers are modelled as exact rationals; `round` is Python's
round-half-to-even; Python's `/` raising `ZeroDivisionError` is an
`Option`; an item dictionary's `tax`, `service_charge` and
`total_price` keys, absent until assigned, are `Option` fields that
start out `none`.
-/

/-- Python `round(x)` to an integer: nearest, ties to even. -/
def roundHalfEven (x : ℚ) : ℤ :=
  if x - x.floor < 1 / 2 then x.floor
  else if 1 / 2 < x - x.floor then x.floor + 1
  else if x.floor % 2 = 0 then x.floor else x.floor + 1

/-- Python `round(x, 2)`. -/
def round2 (x : ℚ) : ℚ := (roundHalfEven (x * 100) : ℚ) / 100

/-- Python `/`: `none` models `ZeroDivisionError`. -/
def pyDiv (a b : ℚ) : Option ℚ := if b = 0 then none else some (a / b)

/-- One parsed bill item. The model response carries only `name` and
`price`; the other keys do not exist until `analyze_bill` assigns
them. -/
structure BillItem where
  name : String
  price : ℚ
  tax : Option ℚ := none
  service_charge : Option ℚ := none
  total_price : Option ℚ := none
deriving DecidableEq, Repr

/-- The parsed bill. -/
structure BillData where
  items : List BillItem
  subtotal : ℚ
  tax : ℚ
  service_charge : ℚ
  total : ℚ
deriving DecidableEq, Repr

/-- The proportional-charge step of `analyze_bill`. -/
def applyCharges (d : BillData) : Option BillData :=
  if d.subtotal > 0 then do
    let tax_rate ← pyDiv d.tax d.subtotal
    let service_rate ← pyDiv d.service_charge d.subtotal
    some { d with
      items := d.items.map (fun item =>
        let t := round2 (item.price * tax_rate)
        let s := round2 (item.price * service_rate)
        { item with
          tax := some t
          service_charge := some s
          total_price := some (round2 (item.price + t + s)) }) }
  else
    some d

/-- The zero-subtotal claim as stated: the computation succeeds and
every item ends up with tax and service charge equal to 0. -/
def zeroSubtotalGivesZeroCharges (d : BillData) : Prop :=
  d.subtotal = 0 →
    ∃ e, applyCharges d = some e ∧
      ∀ item ∈ e.items, item.tax = some 0 ∧ item.service_charge = some 0

/-- A bill whose subtotal is 0: one listed item, nothing else on it. -/
def billZero : BillData :=
  { items := [{ name := "Burger", price := 5 }]
    subtotal := 0, tax := 0, service_charge := 0, total := 0 }

/-! ### PayNow recipient store (src/paynow_storage.py)

`PayNowStorage.data` is a JSON-backed dict keyed by `str(user_id)`;
the dict is modelled extensionally as a map from keys to optional
entries, with `get`/`save`/`delete` transcribing `get_user_paynow`,
`save_user_paynow` and `delete_user_paynow` (the JSON file write they
also perform has no effect on the dict). -/

/-- One stored value: `{'phone': phone, 'name': name}`. -/
structure PayNowEntry where
  phone : String
  name : String
deriving DecidableEq, Repr

/-- The storage dict's contents. -/
def StorageMap : Type := String → Option PayNowEntry

/-- The dict key `user_key = str(user_id)`. -/
def userKey (user_id : Int) : String := intStr user_id

/-- Reading: `get_user_paynow` returns `self.data.get(user_key)`. -/
def get_user_paynow (s : StorageMap) (user_id : Int) : Option PayNowEntry :=
  s (userKey user_id)

/-- Saving: `save_user_paynow` sets `self.data[user_key] = {'phone': phone, 'name': name}`. -/
def save_user_paynow (s : StorageMap) (user_id : Int) (phone name : String) :
    StorageMap :=
  fun k => if k = userKey user_id then some { phone, name } else s k

/-- Deleting: `delete_user_paynow` runs `if user_key in self.data: del self.data[user_key]`. -/
def delete_user_paynow (s : StorageMap) (user_id : Int) : StorageMap :=
  if (s (userKey user_id)).isSome then
    fun k => if k = userKey user_id then none else s k
  else
    s

/-- The empty store. -/
def emptyStore : StorageMap := fun _ => none

/-! ### Concrete requests used by witnesses and counterexamples -/

/-- The object `PayNowQR("MOBILE", "91234567", "John Doe", 118.00,
"Test split")` constructs (spec §8 scenario 7). -/
def qJohn : PayNowQR :=
  { recipient_type := "MOBILE", recipient_id := "91234567",
    recipient_name := "John Doe", amount := "118.00",
    reference := "Test split", expiry_date := "20991230" }

/-- A UEN-typed request with an explicit expiry date. -/
def qUen : PayNowQR :=
  { recipient_type := "UEN", recipient_id := "201403121W",
    recipient_name := "Acme Pte Ltd", amount := "50.00",
    reference := "Inv 1", expiry_date := "20260101" }

/-- A request whose recipient name has a character that is 2 bytes in
UTF-8, so its character count is 4 and its byte count is 5. -/
def qCafe : PayNowQR :=
  { recipient_type := "MOBILE", recipient_id := "91234567",
    recipient_name := "Café", amount := "118.00",
    reference := "Test split", expiry_date := "20991230" }

/-! ### Bounds and formatting lemmas -/

theorem crcBit_lt (c : Nat) : crcBit c < 65536 := by
  have h : crcBit c ≤ 0xFFFF := Nat.and_le_right
  omega

theorem crcInner_lt (k c : Nat) : crcInner (k + 1) c < 65536 := by
  induction k generalizing c with
  | zero => exact crcBit_lt c
  | succ n ih => exact ih (crcBit c)

theorem crcFold_lt (bytes : List Nat) : crcFold bytes < 65536 := by
  have haux : ∀ (l : List Nat) (c : Nat), c < 65536 →
      l.foldl (fun crc byte => crcInner 8 (crc ^^^ (byte <<< 8))) c < 65536 := by
    intro l
    induction l with
    | nil => intro c hc; exact hc
    | cons b t ih =>
      intro c _
      exact ih _ (crcInner_lt 7 (c ^^^ (b <<< 8)))
  exact haux _ 0xFFFF (by norm_num)

theorem hexCharsFuel_length_le : ∀ (f k n : Nat), 1 ≤ k → n < 16 ^ k →
    (hexCharsFuel f n).length ≤ k := by
  intro f
  induction f with
  | zero => intro k n hk _; simpa [hexCharsFuel] using hk
  | succ m ih =>
    intro k n hk hn
    rw [hexCharsFuel]
    by_cases h : n < 16
    · rw [if_pos h]; simpa using hk
    · rw [if_neg h]
      have hk2 : 2 ≤ k := by
        by_contra hlt
        interval_cases k <;> omega
      have hdiv : n / 16 < 16 ^ (k - 1) := by
        rw [Nat.div_lt_iff_lt_mul (by norm_num)]
        calc n < 16 ^ k := hn
          _ = 16 ^ (k - 1) * 16 := by
            rw [← pow_succ]
            congr 1
            omega
      have := ih (k - 1) (n / 16) (by omega) hdiv
      simp only [List.length_append, List.length_cons, List.length_nil]
      omega

theorem hexChars_length_le (k n : Nat) (hk : 1 ≤ k) (hn : n < 16 ^ k) :
    (hexChars n).length ≤ k :=
  hexCharsFuel_length_le n k n hk hn

theorem padZeros_length (s : String) (w : Nat) :
    (padZeros s w).length = w - s.length + s.length := by
  have hd : s.data.length = s.length := rfl
  simp [padZeros, hd]

theorem hex04_length {n : Nat} (hn : n < 65536) : (hex04 n).length = 4 := by
  have h4 : (hexChars n).length ≤ 4 :=
    hexChars_length_le 4 n (by norm_num) (by norm_num; omega)
  rw [hex04, padZeros_length]
  simp only [String.length_mk]
  omega

/-- The length of the checksum string `calculate_crc` returns is always 4. -/
theorem calculate_crc_length (s : String) : (calculate_crc s).length = 4 :=
  hex04_length (crcFold_lt (utf8Bytes s))

/-! ### The source CRC agrees with the spec's reference CRC -/

theorem crcBit_eq_specRound (c : Nat) : crcBit c = crcSpecRound c := by
  have hmask : ∀ x : Nat, x &&& 0xFFFF = x % 65536 := by
    intro x
    have h := Nat.and_pow_two_sub_one_eq_mod x 16
    norm_num at h
    exact h
  have hand := Nat.and_two_pow c 15
  norm_num at hand
  rw [crcBit, crcSpecRound, hmask]
  cases htb : c.testBit 15 with
  | false =>
    rw [if_neg, if_neg]
    · simp [htb]
    · rw [hand, htb]
      simp
  | true =>
    rw [if_pos, if_pos rfl]
    rw [hand, htb]
    norm_num

theorem crcInner_eq_iterate : ∀ (k c : Nat), crcInner k c = crcSpecRound^[k] c := by
  intro k
  induction k with
  | zero => intro c; rfl
  | succ m ih =>
    intro c
    show crcInner m (crcBit c) = crcSpecRound^[m + 1] c
    rw [ih (crcBit c), crcBit_eq_specRound, ← Function.iterate_succ_apply]

theorem crcFold_eq_specFold (bytes : List Nat) :
    crcFold bytes = crcSpecFold bytes 0xFFFF := by
  have haux : ∀ (l : List Nat) (c : Nat),
      l.foldl (fun crc byte => crcInner 8 (crc ^^^ (byte <<< 8))) c = crcSpecFold l c := by
    intro l
    induction l with
    | nil => intro c; rfl
    | cons b t ih =>
      intro c
      show t.foldl _ (crcInner 8 (c ^^^ (b <<< 8))) = crcSpecFold t (crcSpecByte c b)
      rw [ih, crcInner_eq_iterate]
      rfl
  exact haux _ _

/-! ### The checksum string is made of uppercase hex digits -/

theorem hexDigitChar_mem {d : Nat} (hd : d < 16) : hexDigitChar d ∈ hexUpperChars := by
  interval_cases d <;> decide

theorem hexCharsFuel_subset : ∀ (f n : Nat), ∀ c ∈ hexCharsFuel f n, c ∈ hexUpperChars := by
  intro f
  induction f with
  | zero =>
    intro n c hc
    simp only [hexCharsFuel, List.mem_singleton] at hc
    exact hc ▸ hexDigitChar_mem (Nat.mod_lt n (by omega))
  | succ m ih =>
    intro n c hc
    rw [hexCharsFuel] at hc
    by_cases h : n < 16
    · rw [if_pos h] at hc
      simp only [List.mem_singleton] at hc
      exact hc ▸ hexDigitChar_mem h
    · rw [if_neg h] at hc
      rcases List.mem_append.mp hc with h1 | h2
      · exact ih (n / 16) c h1
      · simp only [List.mem_singleton] at h2
        exact h2 ▸ hexDigitChar_mem (Nat.mod_lt n (by omega))

theorem hex04_chars (n : Nat) : ∀ c ∈ (hex04 n).data, c ∈ hexUpperChars := by
  intro c hc
  rcases List.mem_append.mp hc with h1 | h2
  · have := List.eq_of_mem_replicate h1
    subst this
    decide
  · exact hexCharsFuel_subset n n c h2

theorem calculate_crc_chars (s : String) :
    ∀ c ∈ (calculate_crc s).data, c ∈ hexUpperChars :=
  hex04_chars (crcFold (utf8Bytes s))

/-! ### Payload decomposition into emitted TLV fields -/

theorem merchantAccountInfo_decomp (q : PayNowQR) :
    merchantAccountInfo q = String.join ((merchantAccountFields q).map renderTLV) := by
  apply String.ext
  simp only [merchantAccountFields, renderTLV, String.join, List.map, List.foldl,
    merchantAccountInfo, String.data_append, List.append_assoc, List.cons_append,
    List.nil_append]

theorem additionalData_decomp (q : PayNowQR) :
    additionalData q = String.join ((additionalDataFields q).map renderTLV) := by
  apply String.ext
  simp only [additionalDataFields, renderTLV, String.join, List.map, List.foldl,
    additionalData, String.data_append, List.append_assoc, List.cons_append,
    List.nil_append]

theorem generate_payload_decomp (q : PayNowQR) :
    generate_payload q = String.join ((topLevelFields q).map renderTLV) := by
  apply String.ext
  simp only [topLevelFields, renderTLV, String.join, List.map, List.foldl,
    generate_payload, payloadBody, String.data_append, List.append_assoc,
    List.cons_append, List.nil_append]


/-! ### Decimal digit lemmas -/

theorem toNat_decDigitChar {d : Nat} (hd : d < 10) : (decDigitChar d).toNat = 48 + d := by
  interval_cases d <;> decide

theorem isDecDigit_decDigitChar {d : Nat} (hd : d < 10) :
    isDecDigit (decDigitChar d) = true := by
  interval_cases d <;> decide

theorem decCharsFuel_length_le : ∀ (f k n : Nat), 1 ≤ k → n < 10 ^ k →
    (decCharsFuel f n).length ≤ k := by
  intro f
  induction f with
  | zero => intro k n hk _; simpa [decCharsFuel] using hk
  | succ m ih =>
    intro k n hk hn
    rw [decCharsFuel]
    by_cases h : n < 10
    · rw [if_pos h]; simpa using hk
    · rw [if_neg h]
      have hk2 : 2 ≤ k := by
        by_contra hlt
        interval_cases k <;> omega
      have hdiv : n / 10 < 10 ^ (k - 1) := by
        rw [Nat.div_lt_iff_lt_mul (by norm_num)]
        calc n < 10 ^ k := hn
          _ = 10 ^ (k - 1) * 10 := by
            rw [← pow_succ]
            congr 1
            omega
      have := ih (k - 1) (n / 10) (by omega) hdiv
      simp only [List.length_append, List.length_cons, List.length_nil]
      omega

theorem decChars_length_le (k n : Nat) (hk : 1 ≤ k) (hn : n < 10 ^ k) :
    (decChars n).length ≤ k :=
  decCharsFuel_length_le n k n hk hn

theorem decCharsFuel_digits : ∀ (f n : Nat), ∀ c ∈ decCharsFuel f n,
    isDecDigit c = true := by
  intro f
  induction f with
  | zero =>
    intro n c hc
    simp only [decCharsFuel, List.mem_singleton] at hc
    exact hc ▸ isDecDigit_decDigitChar (Nat.mod_lt n (by omega))
  | succ m ih =>
    intro n c hc
    rw [decCharsFuel] at hc
    by_cases h : n < 10
    · rw [if_pos h] at hc
      simp only [List.mem_singleton] at hc
      exact hc ▸ isDecDigit_decDigitChar h
    · rw [if_neg h] at hc
      rcases List.mem_append.mp hc with h1 | h2
      · exact ih (n / 10) c h1
      · simp only [List.mem_singleton] at h2
        exact h2 ▸ isDecDigit_decDigitChar (Nat.mod_lt n (by omega))

theorem charsVal_append_singleton (l : List Char) (c : Char) :
    charsVal (l ++ [c]) = 10 * charsVal l + (c.toNat - 48) := by
  simp [charsVal, List.foldl_append]

theorem charsVal_decCharsFuel : ∀ (f n : Nat), n ≤ f →
    charsVal (decCharsFuel f n) = n := by
  intro f
  induction f with
  | zero =>
    intro n hn
    interval_cases n
    decide
  | succ m ih =>
    intro n hn
    rw [decCharsFuel]
    by_cases h : n < 10
    · rw [if_pos h]
      have hv : charsVal [decDigitChar n] = (decDigitChar n).toNat - 48 := by
        simp [charsVal]
      rw [hv, toNat_decDigitChar h]
      omega
    · have hlt : n / 10 < n := Nat.div_lt_self (by omega) (by omega)
      rw [if_neg h, charsVal_append_singleton, ih (n / 10) (by omega),
        toNat_decDigitChar (Nat.mod_lt n (by omega))]
      omega

theorem charsVal_decChars (n : Nat) : charsVal (decChars n) = n :=
  charsVal_decCharsFuel n n le_rfl

theorem natStr_injective : Function.Injective natStr := by
  intro a b h
  have hd : decChars a = decChars b := congrArg String.data h
  have hv := charsVal_decChars a
  rw [hd, charsVal_decChars] at hv
  omega

theorem intStr_injective : Function.Injective intStr := by
  intro a b h
  rw [intStr, intStr] at h
  by_cases ha : a < 0 <;> by_cases hb : b < 0
  · rw [if_pos ha, if_pos hb] at h
    have hd : '-' :: decChars a.natAbs = '-' :: decChars b.natAbs :=
      congrArg String.data h
    have habs := charsVal_decChars a.natAbs
    rw [List.cons.injEq] at hd
    rw [hd.2, charsVal_decChars] at habs
    omega
  · rw [if_pos ha, if_neg hb] at h
    have hd : '-' :: decChars a.natAbs = decChars b.natAbs :=
      congrArg String.data h
    have hm : '-' ∈ decChars b.natAbs := hd ▸ List.mem_cons_self _ _
    have := decCharsFuel_digits b.natAbs b.natAbs '-' hm
    simp [isDecDigit] at this
  · rw [if_neg ha, if_pos hb] at h
    have hd : decChars a.natAbs = '-' :: decChars b.natAbs :=
      congrArg String.data h
    have hm : '-' ∈ decChars a.natAbs := hd ▸ List.mem_cons_self _ _
    have := decCharsFuel_digits a.natAbs a.natAbs '-' hm
    simp [isDecDigit] at this
  · rw [if_neg ha, if_neg hb] at h
    have habs := natStr_injective h
    omega

theorem userKey_injective : Function.Injective userKey :=
  fun _ _ h => intStr_injective h

theorem pad02_length {n : Nat} (hn : n ≤ 99) : (pad02 n).length = 2 := by
  have h2 : (decChars n).length ≤ 2 := decChars_length_le 2 n (by norm_num) (by omega)
  have hs : (natStr n).length = (decChars n).length := rfl
  rw [pad02, padZeros_length]
  omega

theorem pad08_length {n : Nat} (hn : n < 10 ^ 8) : (pad08 n).length = 8 := by
  have h8 : (decChars n).length ≤ 8 := decChars_length_le 8 n (by norm_num) hn
  have hs : (natStr n).length = (decChars n).length := rfl
  rw [pad08, padZeros_length]
  omega

theorem pad08_digits (n : Nat) : ∀ c ∈ (pad08 n).data, isDecDigit c = true := by
  intro c hc
  rcases List.mem_append.mp hc with h1 | h2
  · rw [List.eq_of_mem_replicate h1]
    decide
  · exact decCharsFuel_digits n n c h2

theorem charsVal_lt_pow (l : List Char) (hl : ∀ c ∈ l, isDecDigit c = true) :
    charsVal l < 10 ^ l.length := by
  have haux : ∀ (t : List Char) (a : Nat), (∀ c ∈ t, isDecDigit c = true) →
      t.foldl (fun a c => 10 * a + (c.toNat - 48)) a < (a + 1) * 10 ^ t.length := by
    intro t
    induction t with
    | nil => intro a _; simpa using Nat.lt_succ_self a
    | cons c t ih =>
      intro a hall
      have hc : isDecDigit c = true := hall c (List.mem_cons_self c t)
      have hd : c.toNat - 48 ≤ 9 := by
        simp [isDecDigit] at hc
        omega
      have hrec := ih (10 * a + (c.toNat - 48))
        (fun x hx => hall x (List.mem_cons_of_mem c hx))
      calc (c :: t).foldl (fun a c => 10 * a + (c.toNat - 48)) a
          = t.foldl (fun a c => 10 * a + (c.toNat - 48)) (10 * a + (c.toNat - 48)) := rfl
        _ < (10 * a + (c.toNat - 48) + 1) * 10 ^ t.length := hrec
        _ ≤ ((a + 1) * 10) * 10 ^ t.length := by
            have : 10 * a + (c.toNat - 48) + 1 ≤ (a + 1) * 10 := by omega
            exact Nat.mul_le_mul_right _ this
        _ = (a + 1) * 10 ^ (c :: t).length := by
            rw [List.length_cons, pow_succ]
            ring
  have := haux l 0 hl
  simpa using this

/-! ### UTF-8 lemmas -/

theorem utf8Len_of_ascii (s : String) (h : ∀ c ∈ s.data, c.toNat < 128) :
    utf8Len s = s.length := by
  have haux : ∀ l : List Char, (∀ c ∈ l, c.toNat < 128) →
      ((l.map (fun c => utf8EncodeCharNat c.toNat)).flatten).length = l.length := by
    intro l
    induction l with
    | nil => intro _; rfl
    | cons c t ih =>
      intro hl
      have henc : utf8EncodeCharNat c.toNat = [c.toNat] := by
        rw [utf8EncodeCharNat, if_pos (hl c (List.mem_cons_self c t))]
      simp only [List.map_cons, List.flatten_cons, List.length_append, henc,
        List.length_cons, List.length_nil]
      rw [ih (fun x hx => hl x (List.mem_cons_of_mem c hx))]
      omega
  exact haux s.data h




/-! ### Structure of the generated payload around its checksum -/

theorem string_data_length (s : String) : s.data.length = s.length := by
  cases s
  rfl

theorem generate_payload_split (q : PayNowQR) :
    (generate_payload q).data
      = (payloadBody q ++ "6304").data
        ++ (calculate_crc (payloadBody q ++ "6304")).data := rfl

theorem payload_crc_take (q : PayNowQR) :
    (⟨(generate_payload q).data.take ((generate_payload q).data.length - 4)⟩ : String)
      = payloadBody q ++ "6304" := by
  have h4 : (calculate_crc (payloadBody q ++ "6304")).data.length = 4 := by
    rw [string_data_length]
    exact calculate_crc_length _
  rw [generate_payload_split q, List.length_append, h4, Nat.add_sub_cancel,
    List.take_left]

theorem payload_crc_drop (q : PayNowQR) :
    (generate_payload q).data.drop ((generate_payload q).data.length - 4)
      = (calculate_crc (payloadBody q ++ "6304")).data := by
  have h4 : (calculate_crc (payloadBody q ++ "6304")).data.length = 4 := by
    rw [string_data_length]
    exact calculate_crc_length _
  rw [generate_payload_split q, List.length_append, h4, Nat.add_sub_cancel,
    List.drop_left]

theorem payloadBody_6304_data (q : PayNowQR) :
    (payloadBody q ++ "6304").data = (payloadBody q).data ++ "6304".data := rfl

theorem generate_payload_data_length (q : PayNowQR) :
    (generate_payload q).data.length = (payloadBody q).data.length + 8 := by
  have h4 : (calculate_crc (payloadBody q ++ "6304")).data.length = 4 := by
    rw [string_data_length]
    exact calculate_crc_length _
  have h6 : ("6304" : String).data.length = 4 := rfl
  rw [generate_payload_split, List.length_append, h4, payloadBody_6304_data,
    List.length_append, h6]

theorem payload_before_crc_ends_6304 (q : PayNowQR) :
    ((generate_payload q).data.take ((generate_payload q).data.length - 4)).drop
      ((generate_payload q).data.length - 8) = "6304".data := by
  have h4 : (calculate_crc (payloadBody q ++ "6304")).data.length = 4 := by
    rw [string_data_length]
    exact calculate_crc_length _
  have h6 : ("6304" : String).data.length = 4 := rfl
  rw [generate_payload_split q, List.length_append, h4, Nat.add_sub_cancel,
    List.take_left, payloadBody_6304_data, List.length_append, h6]
  have harith : (payloadBody q).data.length + 4 + 4 - 8 = (payloadBody q).data.length := by
    omega
  rw [harith, List.drop_left]

/-! ## Claim theorems -/

/-- C1: for every `PayNowQR` request and every `PayNowGenerator`
request, the encoder computes the CRC checksum over the entire
assembled payload string concatenated with the literal suffix
`"6304"`, and the returned payload is that assembled prefix followed by
`"6304"` followed by the computed 4-hex-digit checksum as its final 4
characters. -/
theorem c1_checksum_over_body_plus_6304 :
    ∀ (q : PayNowQR) (g : PayNowGenerator) (amountCents : Int) (reference : String),
      generate_payload q =
        payloadBody q ++ "6304" ++ calculate_crc (payloadBody q ++ "6304") ∧
      (calculate_crc (payloadBody q ++ "6304")).length = 4 ∧
      generate_paynow_string g amountCents reference =
        (gpBase g amountCents reference ++ "6304")
          ++ calculate_crc16 (gpBase g amountCents reference ++ "6304") ∧
      (calculate_crc16 (gpBase g amountCents reference ++ "6304")).length = 4 := by
  intro q g a r
  exact ⟨rfl, calculate_crc_length _, rfl, calculate_crc_length _⟩

/-- C2: the checksum function is total over every input string (so over
every UTF-8 byte sequence, the empty one included), agrees with the
spec's reference CRC-16/CCITT definition, the generator's copy agrees
with it, and its result is always exactly 4 uppercase zero-padded hex
digits; on the empty input it returns `"FFFF"`. -/
theorem c2_crc_matches_reference :
    ∀ s : String,
      calculate_crc s = computeChecksum (utf8Bytes s) ∧
      calculate_crc16 s = calculate_crc s ∧
      (calculate_crc s).length = 4 ∧
      (∀ c ∈ (calculate_crc s).data, c ∈ hexUpperChars) ∧
      calculate_crc "" = "FFFF" := by
  intro s
  refine ⟨?_, rfl, calculate_crc_length s, calculate_crc_chars s, by decide⟩
  rw [calculate_crc, computeChecksum, crcFold_eq_specFold]

/-- C3 counterexample: the encoder writes character counts, not UTF-8
byte lengths: the name `"Café"` is 4 characters but 5 UTF-8 bytes, and
the emitted tag-59 length field is `"04"`, not `"05"`. -/
theorem c3_counterexample :
    mkPayNowQR "MOBILE" "91234567" "Café" 11800 "Test split" "" = some qCafe ∧
    ("59", "04", "Café") ∈ tlvEmitted qCafe ∧
    utf8Len "Café" = 5 ∧
    pad02 (utf8Len "Café") = "05" ∧
    ¬ lengthsAreUtf8ByteLengths qCafe := by
  refine ⟨by decide, by decide, by decide, by decide, ?_⟩
  unfold lengthsAreUtf8ByteLengths
  decide

/-- C3 (amended): each emitted TLV length field is the 2-digit decimal
rendering of the character count of the value that follows it (provided
the reference fits the 2-digit length field), and that equals the UTF-8
byte length exactly when the emitted values are all ASCII. -/
theorem c3_lengths_are_char_counts :
    ∀ q : PayNowQR, q.reference.length ≤ 99 →
      (∀ f ∈ tlvEmitted q, f.2.1 = pad02 f.2.2.length) ∧
      ((∀ f ∈ tlvEmitted q, ∀ c ∈ f.2.2.data, c.toNat < 128) →
        ∀ f ∈ tlvEmitted q, f.2.1 = pad02 (utf8Len f.2.2)) := by
  intro q href
  have h01 : ("01" : String).length = 2 := rfl
  have hlen62 : (additionalData q).length = q.reference.length + 4 := by
    simp only [additionalData, String.length_append, h01, pad02_length href]
    omega
  have hcrc : (calculate_crc (payloadBody q ++ "6304")).length = 4 :=
    calculate_crc_length _
  have hlist : tlvEmitted q =
      [("00", "02", "01"),
       ("01", "02", "12"),
       ("26", pad02 (merchantAccountInfo q).length, merchantAccountInfo q),
       ("52", "04", "0000"),
       ("53", "03", "702"),
       ("54", pad02 q.amount.length, q.amount),
       ("58", "02", "SG"),
       ("59", pad02 q.recipient_name.length, q.recipient_name),
       ("60", "09", "Singapore"),
       ("62", pad02 (q.reference.length + 4), additionalData q),
       ("63", "04", calculate_crc (payloadBody q ++ "6304")),
       ("00", "09", "SG.PAYNOW"),
       ("01", pad02 (recipientTypeId q).length, recipientTypeId q),
       ("02", pad02 q.recipient_id.length, q.recipient_id),
       ("03", "01", "0"),
       ("04", pad02 q.expiry_date.length, q.expiry_date),
       ("01", pad02 q.reference.length, q.reference)] := by
    simp [tlvEmitted, topLevelFields, merchantAccountFields, additionalDataFields]
  have hpart1 : ∀ f ∈ tlvEmitted q, f.2.1 = pad02 f.2.2.length := by
    intro f hf
    rw [hlist] at hf
    simp only [List.mem_cons, List.not_mem_nil, or_false] at hf
    rcases hf with rfl|rfl|rfl|rfl|rfl|rfl|rfl|rfl|rfl|rfl|rfl|rfl|rfl|rfl|rfl|rfl|rfl
    · decide
    · decide
    · rfl
    · decide
    · decide
    · rfl
    · decide
    · rfl
    · decide
    · rw [hlen62]
    · rw [hcrc]; rfl
    · decide
    · rfl
    · rfl
    · decide
    · rfl
    · rfl
  refine ⟨hpart1, ?_⟩
  intro hascii f hf
  rw [hpart1 f hf, utf8Len_of_ascii f.2.2 (hascii f hf)]

/-- C3 witness: the amended claim evaluated on the spec's own concrete
scenario request. -/
theorem c3_witness :
    qJohn.reference.length ≤ 99 ∧
    ((∀ f ∈ tlvEmitted qJohn, f.2.1 = pad02 f.2.2.length) ∧
      ((∀ f ∈ tlvEmitted qJohn, ∀ c ∈ f.2.2.data, c.toNat < 128) →
        ∀ f ∈ tlvEmitted qJohn, f.2.1 = pad02 (utf8Len f.2.2))) :=
  ⟨by decide, c3_lengths_are_char_counts qJohn (by decide)⟩

/-- C4: the tag-26 merchant-account value is the rendering of its
sub-fields, among which the proxy-type sub-field with tag `01` carries
`"0"` when the recipient type is `"MOBILE"` and `"2"` when it is
`"UEN"`. -/
theorem c4_proxy_type :
    ∀ q : PayNowQR,
      merchantAccountInfo q = String.join ((merchantAccountFields q).map renderTLV) ∧
      (q.recipient_type = "MOBILE" → ("01", "01", "0") ∈ merchantAccountFields q) ∧
      (q.recipient_type = "UEN" → ("01", "01", "2") ∈ merchantAccountFields q) := by
  intro q
  refine ⟨merchantAccountInfo_decomp q, ?_, ?_⟩
  · intro h
    have hrt : recipientTypeId q = "0" := by
      rw [recipientTypeId, if_neg]
      rw [h]
      decide
    simp only [merchantAccountFields, hrt, List.mem_cons]
    right
    left
    decide
  · intro h
    have hrt : recipientTypeId q = "2" := by
      rw [recipientTypeId, if_pos h]
    simp only [merchantAccountFields, hrt, List.mem_cons]
    right
    left
    decide

/-- C4 witness: the theorem applied to a concrete MOBILE request and a
concrete UEN request. -/
theorem c4_witness :
    qJohn.recipient_type = "MOBILE" ∧
    ("01", "01", "0") ∈ merchantAccountFields qJohn ∧
    qUen.recipient_type = "UEN" ∧
    ("01", "01", "2") ∈ merchantAccountFields qUen :=
  ⟨rfl, (c4_proxy_type qJohn).2.1 rfl, rfl, (c4_proxy_type qUen).2.2 rfl⟩

/-- C5: the tag-26 merchant-account value always contains the sub-field
with tag `03`, length `01` and value `"0"` (fixed amount). -/
theorem c5_fixed_amount_subfield :
    ∀ q : PayNowQR,
      merchantAccountInfo q = String.join ((merchantAccountFields q).map renderTLV) ∧
      ("03", "01", "0") ∈ merchantAccountFields q := by
  intro q
  exact ⟨merchantAccountInfo_decomp q, by simp [merchantAccountFields]⟩

/-- C6: for every constructed request whose expiry argument is empty or
an 8-digit string, the tag-26 value contains sub-field tag `04` whose
value is the stored expiry date, that value is 8 decimal digits, and
when no expiry was supplied it is the sentinel `"20991230"`. -/
theorem c6_expiry_subfield :
    ∀ (rt rid rname : String) (amt : Int) (ref e : String) (q : PayNowQR),
      mkPayNowQR rt rid rname amt ref e = some q →
      (e = "" ∨ (e.data.length = 8 ∧ ∀ c ∈ e.data, isDecDigit c = true)) →
      ("04", pad02 q.expiry_date.length, q.expiry_date) ∈ merchantAccountFields q ∧
      q.expiry_date.length = 8 ∧
      (∀ c ∈ q.expiry_date.data, isDecDigit c = true) ∧
      (e = "" → q.expiry_date = "20991230") := by
  intro rt rid rname amt ref e q hmk hwf
  have hm : ("04", pad02 q.expiry_date.length, q.expiry_date) ∈ merchantAccountFields q := by
    simp [merchantAccountFields]
  rcases hwf with he | ⟨hlen, hdig⟩
  · subst he
    rw [mkPayNowQR, if_pos rfl] at hmk
    injection hmk with h
    subst h
    refine ⟨hm, ?_, ?_, fun _ => rfl⟩
    · show ("20991230" : String).length = 8
      decide
    · show ∀ c ∈ ("20991230" : String).data, isDecDigit c = true
      decide
  · by_cases he : e = ""
    · subst he
      exact absurd hlen (by decide)
    · have hne : e.data ≠ [] := by
        intro h0
        rw [h0] at hlen
        exact absurd hlen (by decide)
      rw [mkPayNowQR, if_neg he, parseNat?, if_pos ⟨hne, hdig⟩] at hmk
      injection hmk with h
      subst h
      have hlt : charsVal e.data < 10 ^ 8 := by
        have hb := charsVal_lt_pow e.data hdig
        rw [hlen] at hb
        exact hb
      exact ⟨hm, pad08_length hlt, pad08_digits _, fun hc => absurd hc he⟩

/-- C6 witness: the theorem applied to a request with an explicit
8-digit expiry date. -/
theorem c6_witness :
    mkPayNowQR "UEN" "201403121W" "Acme Pte Ltd" 5000 "Inv 1" "20260101" = some qUen ∧
    (("04", pad02 qUen.expiry_date.length, qUen.expiry_date) ∈ merchantAccountFields qUen ∧
      qUen.expiry_date.length = 8 ∧
      (∀ c ∈ qUen.expiry_date.data, isDecDigit c = true) ∧
      (("20260101" : String) = "" → qUen.expiry_date = "20991230")) :=
  ⟨by decide,
    c6_expiry_subfield "UEN" "201403121W" "Acme Pte Ltd" 5000 "Inv 1" "20260101" qUen
      (by decide) (Or.inr ⟨by decide, by decide⟩)⟩

set_option maxRecDepth 2000 in
/-- C7: the spec's concrete scenario: encoding
`("MOBILE", "91234567", "John Doe", 118.00, "Test split")` with the
default expiry yields a payload that starts with `"000201010212"`,
whose tag-26 value starts with (and whose payload contains)
`"0009SG.PAYNOW"`, that contains `"5406118.00"`, whose 4 final
characters are uppercase hex digits preceded by `"6304"`, and
recomputing the checksum over everything before those 4 characters
yields exactly them. -/
theorem c7_concrete_scenario :
    mkPayNowQR "MOBILE" "91234567" "John Doe" 11800 "Test split" "" = some qJohn ∧
    (generate_payload qJohn).data.take 12 = "000201010212".data ∧
    strContains (merchantAccountInfo qJohn) "0009SG.PAYNOW" = true ∧
    strContains (generate_payload qJohn) "0009SG.PAYNOW" = true ∧
    strContains (generate_payload qJohn) "5406118.00" = true ∧
    ((generate_payload qJohn).data.take
        ((generate_payload qJohn).data.length - 4)).drop
        ((generate_payload qJohn).data.length - 8) = "6304".data ∧
    calculate_crc
        ⟨(generate_payload qJohn).data.take ((generate_payload qJohn).data.length - 4)⟩
      = ⟨(generate_payload qJohn).data.drop ((generate_payload qJohn).data.length - 4)⟩ ∧
    ((generate_payload qJohn).data.drop ((generate_payload qJohn).data.length - 4)).length = 4 ∧
    (∀ c ∈ (generate_payload qJohn).data.drop ((generate_payload qJohn).data.length - 4),
      c ∈ hexUpperChars) := by
  refine ⟨by decide, by decide, by decide, by decide, by decide,
    payload_before_crc_ends_6304 qJohn, ?_, ?_, ?_⟩
  · rw [payload_crc_take qJohn, payload_crc_drop qJohn]
  · rw [payload_crc_drop qJohn, string_data_length]
    exact calculate_crc_length _
  · rw [payload_crc_drop qJohn]
    exact calculate_crc_chars _

/-- C8 counterexample: a request that is malformed in the claim's sense
twice over (negative amount and empty recipient id) is not rejected:
encoding returns a payload string rather than failing. -/
theorem c8_counterexample :
    (-100 : Int) < 0 ∧
    ("" : String).length = 0 ∧
    encodePayNow "MOBILE" "" "John Doe" (-100) "Test split" "" ≠ none ∧
    (encodePayNow "MOBILE" "" "John Doe" (-100) "Test split" "").isSome = true := by
  exact ⟨by decide, by decide, by decide, by decide⟩

/-- C8 (amended): the encoder performs no input validation: with the
default expiry every request — negative amounts, empty recipient ids
and oversized names or references included — encodes to a payload
string, and no validation error is ever raised. -/
theorem c8_no_validation :
    ∀ (rt rid rname : String) (amt : Int) (ref : String),
      encodePayNow rt rid rname amt ref "" =
        some (generate_payload
          { recipient_type := rt, recipient_id := rid, recipient_name := rname,
            amount := formatFixed2 amt, reference := ref,
            expiry_date := "20991230" }) := by
  intro rt rid rname amt ref
  rfl

/-- C9 counterexample: on a zero-subtotal bill the computation succeeds
but leaves every item's `tax` and `service_charge` keys unset (`none`),
not set to 0, so the claim as stated fails. -/
theorem c9_counterexample : ¬ zeroSubtotalGivesZeroCharges billZero := by
  intro h
  obtain ⟨e, he, hall⟩ := h rfl
  have heq : applyCharges billZero = some billZero := by decide
  rw [heq] at he
  injection he with h1
  subst h1
  obtain ⟨h1, _⟩ := hall { name := "Burger", price := 5 } (by decide)
  exact Option.noConfusion h1

/-- C9 (amended): for every bill whose subtotal is 0 no division error
occurs and no proportional tax or service charge is added: the bill
comes back unchanged, its items' charge keys left unset. -/
theorem c9_zero_subtotal_unchanged :
    ∀ d : BillData, d.subtotal = 0 → applyCharges d = some d := by
  intro d h
  rw [applyCharges, if_neg]
  rw [h]
  exact lt_irrefl 0

/-- C9 witness: the amended claim evaluated on the concrete
zero-subtotal bill. -/
theorem c9_witness : billZero.subtotal = 0 ∧ applyCharges billZero = some billZero :=
  ⟨rfl, c9_zero_subtotal_unchanged billZero rfl⟩

/-- C10: saving then reading a user's PayNow info returns exactly the
saved phone and name; deleting then reading returns nothing; and both
operations leave every other user's entry untouched. -/
theorem c10_storage_roundtrip :
    ∀ (s : StorageMap) (u v : Int) (phone name : String),
      get_user_paynow (save_user_paynow s u phone name) u = some { phone, name } ∧
      get_user_paynow (delete_user_paynow s u) u = none ∧
      (v ≠ u →
        get_user_paynow (save_user_paynow s u phone name) v = get_user_paynow s v ∧
        get_user_paynow (delete_user_paynow s u) v = get_user_paynow s v) := by
  intro s u v phone name
  refine ⟨?_, ?_, ?_⟩
  · simp [get_user_paynow, save_user_paynow]
  · rw [get_user_paynow, delete_user_paynow]
    by_cases h : (s (userKey u)).isSome
    · rw [if_pos h]
      simp
    · rw [if_neg h]
      exact Option.not_isSome_iff_eq_none.mp h
  · intro hvu
    have hk : userKey v ≠ userKey u := fun hc => hvu (userKey_injective hc)
    constructor
    · simp [get_user_paynow, save_user_paynow, if_neg hk]
    · rw [get_user_paynow, delete_user_paynow]
      by_cases h : (s (userKey u)).isSome
      · rw [if_pos h]
        simp only [if_neg hk]
        rfl
      · rw [if_neg h]
        rfl

/-- C10 witness: the round trip evaluated on the empty store with two
distinct user ids. -/
theorem c10_witness :
    get_user_paynow (save_user_paynow emptyStore 1 "+6591234567" "John Doe") 1
        = some { phone := "+6591234567", name := "John Doe" } ∧
    get_user_paynow (delete_user_paynow emptyStore 1) 1 = none ∧
    (2 : Int) ≠ 1 ∧
    get_user_paynow (save_user_paynow emptyStore 1 "+6591234567" "John Doe") 2
        = get_user_paynow emptyStore 2 ∧
    get_user_paynow (delete_user_paynow emptyStore 1) 2 = get_user_paynow emptyStore 2 := by
  have h2 : (2 : Int) ≠ 1 := by decide
  have h := c10_storage_roundtrip emptyStore 1 2 "+6591234567" "John Doe"
  exact ⟨h.1, h.2.1, h2, (h.2.2 h2).1, (h.2.2 h2).2⟩


end Makansplit
